import Mathlib

/-!
Verification development for the token-2022 extension (TLV) layer of the
`pinocchio` token crate: the discriminant registry (`ExtensionType`), the
TLV directory scanner (`get_extension_from_bytes`,
`get_extension_data_bytes_for_variable_pack`), the typed accessors built on
it, and the instruction encoders of the pausable, confidential-mint-burn,
transfer-hook and scaled-UI-amount extensions.

Bytes are modelled as `Nat` values (< 256 wherever a byte is produced by the
encoders); byte buffers as `List Nat`.  Rust slice indexing panics when the
range exceeds the slice, so every fallible source operation is modelled with
an explicit result type that separates a panic from `None` / `Some`.
-/

/-- `u16::from_le_bytes([b0, b1])`. -/
def u16FromLe (b0 b1 : Nat) : Nat := b0 + 256 * b1

/-- The two little-endian bytes of a `u16` value. -/
def leBytes2 (n : Nat) : List Nat := [n % 256, n / 256 % 256]

/-- Rust slice `l[a..b]` (meaningful when `a ≤ b ≤ l.length`; the bounds are
checked separately by the scanner model, mirroring the panic checks). -/
def sliceBytes (l : List Nat) (a b : Nat) : List Nat := (l.drop a).take (b - a)

/-- `ExtensionType` from `extensions/mod.rs`: the closed enumeration of known
extension identities, discriminants assigned sequentially from 0. -/
inductive ExtensionType where
  | uninitialized
  | transferFeeConfig
  | transferFeeAmount
  | mintCloseAuthority
  | confidentialTransferMint
  | confidentialTransferAccount
  | defaultAccountState
  | immutableOwner
  | memoTransfer
  | nonTransferable
  | interestBearingConfig
  | cpiGuard
  | permanentDelegate
  | nonTransferableAccount
  | transferHook
  | transferHookAccount
  | confidentialTransferFeeConfig
  | confidentialTransferFeeAmount
  | metadataPointer
  | tokenMetadata
  | groupPointer
  | tokenGroup
  | groupMemberPointer
  | tokenGroupMember
  | confidentialMintBurn
  | scaledUiAmount
  | pausable
  | pausableAccount
  deriving DecidableEq, Repr

namespace ExtensionType

/-- The `#[repr(u8)]` discriminant (wire code) of each identity. -/
def code : ExtensionType → Nat
  | .uninitialized => 0
  | .transferFeeConfig => 1
  | .transferFeeAmount => 2
  | .mintCloseAuthority => 3
  | .confidentialTransferMint => 4
  | .confidentialTransferAccount => 5
  | .defaultAccountState => 6
  | .immutableOwner => 7
  | .memoTransfer => 8
  | .nonTransferable => 9
  | .interestBearingConfig => 10
  | .cpiGuard => 11
  | .permanentDelegate => 12
  | .nonTransferableAccount => 13
  | .transferHook => 14
  | .transferHookAccount => 15
  | .confidentialTransferFeeConfig => 16
  | .confidentialTransferFeeAmount => 17
  | .metadataPointer => 18
  | .tokenMetadata => 19
  | .groupPointer => 20
  | .tokenGroup => 21
  | .groupMemberPointer => 22
  | .tokenGroupMember => 23
  | .confidentialMintBurn => 24
  | .scaledUiAmount => 25
  | .pausable => 26
  | .pausableAccount => 27

/-- The `match val` body of `ExtensionType::from_bytes` after
`u16::from_le_bytes`: codes 0–27 map to the identities in order, everything
else to `None`. -/
def fromU16 : Nat → Option ExtensionType
  | 0 => some .uninitialized
  | 1 => some .transferFeeConfig
  | 2 => some .transferFeeAmount
  | 3 => some .mintCloseAuthority
  | 4 => some .confidentialTransferMint
  | 5 => some .confidentialTransferAccount
  | 6 => some .defaultAccountState
  | 7 => some .immutableOwner
  | 8 => some .memoTransfer
  | 9 => some .nonTransferable
  | 10 => some .interestBearingConfig
  | 11 => some .cpiGuard
  | 12 => some .permanentDelegate
  | 13 => some .nonTransferableAccount
  | 14 => some .transferHook
  | 15 => some .transferHookAccount
  | 16 => some .confidentialTransferFeeConfig
  | 17 => some .confidentialTransferFeeAmount
  | 18 => some .metadataPointer
  | 19 => some .tokenMetadata
  | 20 => some .groupPointer
  | 21 => some .tokenGroup
  | 22 => some .groupMemberPointer
  | 23 => some .tokenGroupMember
  | 24 => some .confidentialMintBurn
  | 25 => some .scaledUiAmount
  | 26 => some .pausable
  | 27 => some .pausableAccount
  | _ => none

/-- `ExtensionType::from_bytes(val: [u8; 2])`: little-endian decode then
table lookup. -/
def fromBytes (b0 b1 : Nat) : Option ExtensionType :=
  fromU16 (u16FromLe b0 b1)

end ExtensionType

/-- Outcome of a scanner call, separating the Rust `None` / `Some` return
values from a slice-index panic. -/
inductive ScanResult (α : Type) where
  | panicked : ScanResult α
  | notFound : ScanResult α
  | found : α → ScanResult α
  deriving DecidableEq, Repr

/-- The scanner's type-code read at cursor `s`:
`ExtensionType::from_bytes(ext_bytes[s..s + EXTENSION_TYPE_LEN])`. -/
def readType (ext : List Nat) (s : Nat) : Option ExtensionType :=
  ExtensionType.fromBytes (ext.getD s 0) (ext.getD (s + 1) 0)

/-- The scanner's length read at cursor `s`:
`u16::from_le_bytes(ext_bytes[s + 2..s + 2 + EXTENSION_LENGTH_LEN])`. -/
def readLen (ext : List Nat) (s : Nat) : Nat :=
  u16FromLe (ext.getD (s + 2) 0) (ext.getD (s + 3) 0)

/-- The `while start < end` loop of `get_extension_from_bytes`, over the
extension-region bytes `ext` (the suffix after the base record, padding and
presence flag), looking for wire type `wanted` with exact declared length
`wlen` (`T::TYPE` and `T::LEN`).  Each Rust slice `ext_bytes[a..b]` panics
when `b` exceeds the region length, so every read carries that bound check. -/
def scanFixed (wanted : ExtensionType) (wlen : Nat) (ext : List Nat) (start : Nat) :
    ScanResult (List Nat) :=
  if h : start < ext.length then
    -- `ext_bytes[ext_type_idx..ext_type_idx + EXTENSION_TYPE_LEN]`
    if start + 2 ≤ ext.length then
      -- an unrecognized type code makes the `?` return `None`
      (readType ext start).elim ScanResult.notFound fun ty =>
        -- `ext_bytes[ext_len_idx..ext_len_idx + EXTENSION_LENGTH_LEN]`
        if start + 4 ≤ ext.length then
          if ty = wanted ∧ readLen ext start = wlen then
            -- `ext_bytes[ext_data_idx..ext_data_idx + T::LEN]`
            if start + 4 + wlen ≤ ext.length then
              ScanResult.found (sliceBytes ext (start + 4) (start + 4 + wlen))
            else ScanResult.panicked
          else scanFixed wanted wlen ext (start + 4 + readLen ext start)
        else ScanResult.panicked
    else ScanResult.panicked
  else ScanResult.notFound
termination_by ext.length - start
decreasing_by
  omega

/-- The loop of `get_extension_data_bytes_for_variable_pack`: identical to
`scanFixed` except that only the type must match and the body is returned at
its declared length. -/
def scanVariable (wanted : ExtensionType) (ext : List Nat) (start : Nat) :
    ScanResult (List Nat) :=
  if h : start < ext.length then
    if start + 2 ≤ ext.length then
      (readType ext start).elim ScanResult.notFound fun ty =>
        if start + 4 ≤ ext.length then
          if ty = wanted then
            if start + 4 + readLen ext start ≤ ext.length then
              ScanResult.found (sliceBytes ext (start + 4) (start + 4 + readLen ext start))
            else ScanResult.panicked
          else scanVariable wanted ext (start + 4 + readLen ext start)
        else ScanResult.panicked
    else ScanResult.panicked
  else ScanResult.notFound
termination_by ext.length - start
decreasing_by
  omega

/-- `get_extension_from_bytes::<T>(acc_data_bytes)`.  `baseOff` is the
extension-region offset `Mint::LEN + EXTENSIONS_PADDING + EXTENSION_START_OFFSET`
(mint kind) or `TokenAccount::LEN + EXTENSION_START_OFFSET` (account kind);
the base sizes `Mint::LEN` / `TokenAccount::LEN` live in the crate's `state`
module, which is not among the provided sources, so the offset is kept as a
parameter.  `&acc_data_bytes[baseOff..]` panics when `baseOff` exceeds the
buffer length. -/
def get_extension_from_bytes (wanted : ExtensionType) (wlen : Nat) (baseOff : Nat)
    (accData : List Nat) : ScanResult (List Nat) :=
  if baseOff ≤ accData.length then scanFixed wanted wlen (accData.drop baseOff) 0
  else ScanResult.panicked

/-- `get_extension_data_bytes_for_variable_pack::<T>(acc_data_bytes)`. -/
def get_extension_data_bytes_for_variable_pack (wanted : ExtensionType) (baseOff : Nat)
    (accData : List Nat) : ScanResult (List Nat) :=
  if baseOff ≤ accData.length then scanVariable wanted (accData.drop baseOff) 0
  else ScanResult.panicked

/-- One Extension Record before encoding: a known type identity and its body
bytes. -/
structure ExtRecord where
  type : ExtensionType
  body : List Nat
  deriving DecidableEq, Repr

/-- Wire encoding of one record: 2-byte little-endian type code, 2-byte
little-endian body length, then the body. -/
def encodeRecord (r : ExtRecord) : List Nat :=
  leBytes2 r.type.code ++ leBytes2 r.body.length ++ r.body

/-- Records laid out back-to-back: the contents of an Extension Region. -/
def encodeStream : List ExtRecord → List Nat
  | [] => []
  | r :: rs => encodeRecord r ++ encodeStream rs

/-- A record body must fit the 2-byte length field. -/
def wfRecord (r : ExtRecord) : Prop := r.body.length < 65536

instance wfRecord_decidable (r : ExtRecord) : Decidable (wfRecord r) :=
  Nat.decLt r.body.length 65536

/-- `Pubkey::default()`: 32 zero bytes. -/
def pubkeyDefault : List Nat := List.replicate 32 0

/-- The token-2022 program id (base58
`TokenzQdBNbLqP5VEhdkAS6EPFLC1PHnBqCXEpPxuEb`) as its 32 bytes. -/
def TOKEN_2022_PROGRAM_ID : List Nat :=
  [6, 221, 246, 225, 238, 117, 143, 222, 24, 66, 93, 188, 228, 108, 205, 218,
   182, 26, 252, 77, 131, 185, 13, 39, 254, 189, 249, 40, 216, 161, 139, 252]

/-- `AccountMeta`: an account reference of an instruction, tagged with
writable/signer flags. -/
structure AccountMeta where
  pubkey : List Nat
  isWritable : Bool
  isSigner : Bool
  deriving DecidableEq, Repr

/-- `AccountMeta::writable(key)`. -/
def AccountMeta.writable (k : List Nat) : AccountMeta := ⟨k, true, false⟩

/-- `AccountMeta::readonly(key)`. -/
def AccountMeta.readonly (k : List Nat) : AccountMeta := ⟨k, false, false⟩

/-- `AccountMeta::readonly_signer(key)`. -/
def AccountMeta.readonlySigner (k : List Nat) : AccountMeta := ⟨k, false, true⟩

/-- A payload buffer of `MaybeUninit<u8>` cells, indexed by position:
`none` is an uninitialized byte, `some b` a written byte.  `[UNINIT_BYTE; n]`
starts with every cell uninitialized. -/
def uninitBuf : Nat → Option Nat := fun _ => none

/-- `write_bytes(&mut buf[a..b], src)`: the source zips the destination slice
with `src`, so cell `a + k` receives `src[k]` for `k < min (b - a) src.length`
and every other cell is unchanged. -/
def writeBytes (buf : Nat → Option Nat) (a b : Nat) (src : List Nat) :
    Nat → Option Nat :=
  fun i => if a ≤ i ∧ i < b ∧ i - a < src.length then some (src.getD (i - a) 0) else buf i

/-- A built instruction: program id, ordered account metas, payload bytes. -/
structure Instruction where
  programId : List Nat
  accounts : List AccountMeta
  data : List (Option Nat)
  deriving DecidableEq, Repr

/-- One CPI as performed by `invoke_signed`: the instruction plus the keys of
the account infos passed alongside it. -/
structure CpiCall where
  instruction : Instruction
  accountInfos : List (List Nat)
  deriving DecidableEq, Repr

/-- The first `n` cells of a payload buffer, as sent on the wire
(`core::slice::from_raw_parts(instruction_data.as_ptr(), n)`). -/
def bufToData (f : Nat → Option Nat) (n : Nat) : List (Option Nat) :=
  (List.range n).map f

/-- `Pause::invoke_signed` (pausable.rs): metas `[writable(mint)]`, literal
data `[45, 1]`, account infos `[mint, pause_authority]`. -/
def pauseInvoke (mint pauseAuthority : List Nat) : CpiCall :=
  { instruction :=
      { programId := TOKEN_2022_PROGRAM_ID
        accounts := [AccountMeta.writable mint]
        data := [some 45, some 1] }
    accountInfos := [mint, pauseAuthority] }

/-- `Resume::invoke_signed` (pausable.rs): metas `[writable(mint)]`, literal
data `[45, 2]`, account infos `[mint, pause_authority]`. -/
def resumeInvoke (mint pauseAuthority : List Nat) : CpiCall :=
  { instruction :=
      { programId := TOKEN_2022_PROGRAM_ID
        accounts := [AccountMeta.writable mint]
        data := [some 45, some 2] }
    accountInfos := [mint, pauseAuthority] }

/-- `ApplyPendingBurn::invoke_signed` (confidential_mint_burn.rs): metas
`[writable(mint), readonly_signer(mint_authority)]`, literal data `[42, 5]`,
account infos `[mint, mint_authority]`. -/
def applyPendingBurnInvoke (mint mintAuthority : List Nat) : CpiCall :=
  { instruction :=
      { programId := TOKEN_2022_PROGRAM_ID
        accounts := [AccountMeta.writable mint, AccountMeta.readonlySigner mintAuthority]
        data := [some 42, some 5] }
    accountInfos := [mint, mintAuthority] }

/-- Payload buffer of `transfer_hook::Initialize::invoke_signed`: a 66-cell
uninitialized buffer, then `[0] = 36`, `[1] = 0`, `[2..34]` the authority (or
`Pubkey::default()` when absent), `[34..66]` the hook program id (or
`Pubkey::default()` when absent). -/
def transferHookInitBuf (authority hookProgramId : Option (List Nat)) :
    Nat → Option Nat :=
  writeBytes
    (writeBytes
      (writeBytes (writeBytes uninitBuf 0 1 [36]) 1 2 [0])
      2 34 (match authority with | some a => a | none => pubkeyDefault))
    34 66 (match hookProgramId with | some p => p | none => pubkeyDefault)

/-- `transfer_hook::Initialize::invoke_signed`: metas `[writable(mint)]`,
the 66-byte payload above, account infos `[mint]`. -/
def transferHookInitInvoke (mint : List Nat) (authority hookProgramId : Option (List Nat)) :
    CpiCall :=
  { instruction :=
      { programId := TOKEN_2022_PROGRAM_ID
        accounts := [AccountMeta.writable mint]
        data := bufToData (transferHookInitBuf authority hookProgramId) 66 }
    accountInfos := [mint] }

/-- Payload buffer of `transfer_hook::Update::invoke_signed`: a 66-cell
uninitialized buffer, then `[0] = 36`, `[1] = 1`, `[34..66]` the hook program
id (or `Pubkey::default()` when absent).  The source never writes cells
`[2..34]`. -/
def transferHookUpdateBuf (hookProgramId : Option (List Nat)) : Nat → Option Nat :=
  writeBytes
    (writeBytes (writeBytes uninitBuf 0 1 [36]) 1 2 [1])
    34 66 (match hookProgramId with | some p => p | none => pubkeyDefault)

/-- `transfer_hook::Update::invoke_signed`: metas
`[writable(mint), readonly_signer(authority)]`, the 66-byte payload above,
account infos `[mint]`. -/
def transferHookUpdateInvoke (mint authority : List Nat)
    (hookProgramId : Option (List Nat)) : CpiCall :=
  { instruction :=
      { programId := TOKEN_2022_PROGRAM_ID
        accounts := [AccountMeta.writable mint, AccountMeta.readonlySigner authority]
        data := bufToData (transferHookUpdateBuf hookProgramId) 66 }
    accountInfos := [mint] }

/-- Payload buffer of `scaled_ui_amount::Initialize::invoke_signed`: a 42-cell
uninitialized buffer, then `[0] = 43`, `[1] = 0`, `[2..34]` the authority (or
`Pubkey::default()` when absent), `[34..42]` the multiplier.  `multiplierLe`
stands for `multiplier.to_le_bytes()`: the 8 little-endian bytes of the `f64`
(the float-to-bytes conversion itself is outside the byte-level model). -/
def scaledUiInitBuf (authority : Option (List Nat)) (multiplierLe : List Nat) :
    Nat → Option Nat :=
  writeBytes
    (writeBytes
      (writeBytes (writeBytes uninitBuf 0 1 [43]) 1 2 [0])
      2 34 (match authority with | some a => a | none => pubkeyDefault))
    34 42 multiplierLe

/-- `scaled_ui_amount::Initialize::invoke_signed`: metas `[writable(mint)]`,
the 42-byte payload above, account infos `[mint]`. -/
def scaledUiInitInvoke (mint : List Nat) (authority : Option (List Nat))
    (multiplierLe : List Nat) : CpiCall :=
  { instruction :=
      { programId := TOKEN_2022_PROGRAM_ID
        accounts := [AccountMeta.writable mint]
        data := bufToData (scaledUiInitBuf authority multiplierLe) 42 }
    accountInfos := [mint] }

/-- Errors returned by `from_account_info_unchecked`. -/
inductive ProgramError where
  | invalidAccountOwner
  | invalidAccountData
  deriving DecidableEq, Repr

/-- Result of a typed accessor, with the scanner's panic case kept apart. -/
inductive AccessResult (α : Type) where
  | panicked : AccessResult α
  | err : ProgramError → AccessResult α
  | ok : α → AccessResult α
  deriving DecidableEq, Repr

/-- The account view consumed by the accessors: owner key plus data bytes. -/
structure AccountInfo where
  owner : List Nat
  data : List Nat
  deriving DecidableEq, Repr

/-- `.ok_or(ProgramError::InvalidAccountData)` applied to a scanner result. -/
def okOrInvalidData : ScanResult (List Nat) → AccessResult (List Nat)
  | .panicked => .panicked
  | .notFound => .err .invalidAccountData
  | .found b => .ok b

/-- `DefaultAccountState::from_account_info_unchecked`
(default_account_state.rs): the owner check against the token-2022 id comes
first and fails with `InvalidAccountOwner`; only then runs the TLV lookup,
whose failure is `InvalidAccountData`.  `len` stands for
`size_of::<DefaultAccountState>()` (its field type `AccountState` lives in the
crate's `state` module, which is not among the provided sources) and `baseOff`
for the mint extension-region offset. -/
def defaultAccountState_from_account_info (len baseOff : Nat) (acc : AccountInfo) :
    AccessResult (List Nat) :=
  if acc.owner ≠ TOKEN_2022_PROGRAM_ID then AccessResult.err ProgramError.invalidAccountOwner
  else okOrInvalidData (get_extension_from_bytes .defaultAccountState len baseOff acc.data)

/-- `ScaledUiAmountConfig::from_account_info_unchecked` (scaled_ui_amount.rs):
the source performs **no owner check** — it goes straight to the TLV lookup
and reports failures as `InvalidAccountData`.
`ScaledUiAmountConfig::LEN = 56` (32 + 8 + 8 + 8 `#[repr(C)]` bytes). -/
def scaledUiAmountConfig_from_account_info (baseOff : Nat) (acc : AccountInfo) :
    AccessResult (List Nat) :=
  okOrInvalidData (get_extension_from_bytes .scaledUiAmount 56 baseOff acc.data)

/-- `impl Extension for TransferHookAccount` (transfer_hook.rs, line 21): the
source registers `ExtensionType::TransferHook` — not
`ExtensionType::TransferHookAccount` — as the account view's wire identity. -/
def transferHookAccountTYPE : ExtensionType := ExtensionType.transferHook

/-- `impl Extension for TransferHook` (transfer_hook.rs). -/
def transferHookTYPE : ExtensionType := ExtensionType.transferHook

/-- `impl Extension for PausableConfig` (pausable.rs). -/
def pausableConfigTYPE : ExtensionType := ExtensionType.pausable

/-- `impl Extension for PausableAccount` (pausable.rs). -/
def pausableAccountTYPE : ExtensionType := ExtensionType.pausableAccount

/-- `impl Extension for DefaultAccountState` (default_account_state.rs). -/
def defaultAccountStateTYPE : ExtensionType := ExtensionType.defaultAccountState

/-- `impl Extension for ScaledUiAmountConfig` (scaled_ui_amount.rs). -/
def scaledUiAmountConfigTYPE : ExtensionType := ExtensionType.scaledUiAmount

/-- `impl Extension for PermanentDelegate` (permanent_delegate.rs). -/
def permanentDelegateTYPE : ExtensionType := ExtensionType.permanentDelegate

/-- `impl Extension for ConfidentialMintBurn` (confidential_mint_burn.rs). -/
def confidentialMintBurnTYPE : ExtensionType := ExtensionType.confidentialMintBurn
-- appended after definitions (scratch)
/-- `getD` through `drop`. -/
theorem getD_drop_add (l : List Nat) (i j : Nat) :
    (l.drop i).getD j 0 = l.getD (i + j) 0 := by
  simp [List.getD_eq_getElem?_getD, List.getElem?_drop]

/-- Two scan states that expose the same remaining bytes produce the same
result: `scanFixed` only reads at or after the cursor. -/
theorem scanFixed_congr (w : ExtensionType) (l : Nat) :
    ∀ n ext s ext2 s2, ext.drop s = ext2.drop s2 → ext.length - s ≤ n →
      scanFixed w l ext s = scanFixed w l ext2 s2 := by
  intro n
  induction n with
  | zero =>
    intro ext s ext2 s2 hdrop hn
    have hlen : ext.length - s = ext2.length - s2 := by
      have h := congrArg List.length hdrop
      simpa using h
    conv_lhs => rw [scanFixed]
    conv_rhs => rw [scanFixed]
    rw [dif_neg (by omega : ¬ s < ext.length), dif_neg (by omega : ¬ s2 < ext2.length)]
  | succ n ih =>
    intro ext s ext2 s2 hdrop hn
    have hlen : ext.length - s = ext2.length - s2 := by
      have h := congrArg List.length hdrop
      simpa using h
    have hget : ∀ k, ext.getD (s + k) 0 = ext2.getD (s2 + k) 0 := fun k => by
      rw [← getD_drop_add, ← getD_drop_add, hdrop]
    by_cases h1 : s < ext.length
    case neg =>
      conv_lhs => rw [scanFixed]
      conv_rhs => rw [scanFixed]
      rw [dif_neg h1, dif_neg (by omega : ¬ s2 < ext2.length)]
    case pos =>
      have hty : readType ext2 s2 = readType ext s := by
        unfold readType
        have h0 := hget 0
        have hone := hget 1
        simp only [Nat.add_zero] at h0
        rw [h0, hone]
      have hlenr : readLen ext2 s2 = readLen ext s := by
        unfold readLen
        rw [hget 2, hget 3]
      have hdropk : ∀ k : Nat, ext.drop (s + k) = ext2.drop (s2 + k) := by
        intro k
        rw [← List.drop_drop, hdrop, List.drop_drop]
      have hslice : ∀ a b : Nat, sliceBytes ext (s + a) (s + b) = sliceBytes ext2 (s2 + a) (s2 + b) := by
        intro a b
        unfold sliceBytes
        rw [hdropk a, Nat.add_sub_add_left, Nat.add_sub_add_left]
      conv_lhs => rw [scanFixed]
      conv_rhs => rw [scanFixed]
      rw [dif_pos h1, dif_pos (by omega : s2 < ext2.length), hty, hlenr]
      by_cases h2 : s + 2 ≤ ext.length
      case neg =>
        rw [if_neg h2, if_neg (by omega : ¬ s2 + 2 ≤ ext2.length)]
      case pos =>
        rw [if_pos h2, if_pos (by omega : s2 + 2 ≤ ext2.length)]
        cases hrt : readType ext s with
        | none => rfl
        | some ty =>
          rw [Option.elim_some, Option.elim_some]
          by_cases h4 : s + 4 ≤ ext.length
          case neg =>
            rw [if_neg h4, if_neg (by omega : ¬ s2 + 4 ≤ ext2.length)]
          case pos =>
            rw [if_pos h4, if_pos (by omega : s2 + 4 ≤ ext2.length)]
            by_cases hm : ty = w ∧ readLen ext s = l
            case pos =>
              rw [if_pos hm, if_pos hm]
              by_cases h5 : s + 4 + l ≤ ext.length
              case pos =>
                rw [if_pos h5, if_pos (by omega : s2 + 4 + l ≤ ext2.length)]
                rw [show s + 4 + l = s + (4 + l) by omega, show s2 + 4 + l = s2 + (4 + l) by omega,
                  hslice 4 (4 + l)]
              case neg =>
                rw [if_neg h5, if_neg (by omega : ¬ s2 + 4 + l ≤ ext2.length)]
            case neg =>
              rw [if_neg hm, if_neg hm]
              refine ih ext (s + 4 + readLen ext s) ext2 (s2 + 4 + readLen ext s) ?_ (by omega)
              rw [show s + 4 + readLen ext s = s + (4 + readLen ext s) by omega,
                show s2 + 4 + readLen ext s = s2 + (4 + readLen ext s) by omega]
              exact hdropk (4 + readLen ext s)

/-- Reassembling a `u16` from its little-endian bytes. -/
theorem u16_le_round (n : Nat) (h : n < 65536) :
    u16FromLe (n % 256) (n / 256 % 256) = n := by
  unfold u16FromLe
  omega

/-- Every identity's wire code decodes back to it. -/
theorem fromU16_code (t : ExtensionType) : ExtensionType.fromU16 t.code = some t := by
  cases t <;> rfl

/-- Codes at or above 28 are unrecognized. -/
theorem fromU16_unknown (c : Nat) (h : 28 ≤ c) : ExtensionType.fromU16 c = none := by
  obtain ⟨k, rfl⟩ : ∃ k, c = k + 28 := ⟨c - 28, by omega⟩
  rfl

/-- Wire codes fit in a `u16`. -/
theorem code_lt (t : ExtensionType) : t.code < 65536 := by
  cases t <;> decide

/-- Length of one encoded record. -/
theorem encodeRecord_length (r : ExtRecord) :
    (encodeRecord r).length = 4 + r.body.length := by
  simp [encodeRecord, leBytes2]
  omega

/-- Length of a header-led region. -/
theorem header_length (c bl : Nat) (tail : List Nat) :
    (leBytes2 c ++ leBytes2 bl ++ tail).length = 4 + tail.length := by
  simp [leBytes2]
  omega

/-- The type read at the head of a header-led region. -/
theorem readType_header (c bl : Nat) (tail : List Nat) (hc : c < 65536) :
    readType (leBytes2 c ++ leBytes2 bl ++ tail) 0 = ExtensionType.fromU16 c := by
  unfold readType ExtensionType.fromBytes leBytes2
  simp [List.getD]
  rw [u16_le_round c hc]

/-- The length read at the head of a header-led region. -/
theorem readLen_header (c bl : Nat) (tail : List Nat) (hbl : bl < 65536) :
    readLen (leBytes2 c ++ leBytes2 bl ++ tail) 0 = bl := by
  unfold readLen leBytes2
  simp [List.getD]
  exact u16_le_round bl hbl

/-- Dropping the 4 header bytes of a header-led region. -/
theorem drop4_header (c bl : Nat) (tail : List Nat) :
    (leBytes2 c ++ leBytes2 bl ++ tail).drop 4 = tail := by
  simp [leBytes2]

/-- One encoded record, decomposed as header plus payload-led tail. -/
theorem encodeRecord_append (r : ExtRecord) (rest : List Nat) :
    encodeRecord r ++ rest =
      leBytes2 r.type.code ++ leBytes2 r.body.length ++ (r.body ++ rest) := by
  simp [encodeRecord, List.append_assoc]

/-- A record whose type and declared length both match is returned: the scan
yields exactly its body, whatever bytes follow. -/
theorem scanFixed_step_found (w : ExtensionType) (l : Nat) (r : ExtRecord) (rest : List Nat)
    (hwf : wfRecord r) (hty : r.type = w) (hlen : r.body.length = l) :
    scanFixed w l (encodeRecord r ++ rest) 0 = ScanResult.found r.body := by
  rw [encodeRecord_append]
  have hL := header_length r.type.code r.body.length (r.body ++ rest)
  have hLb : (r.body ++ rest).length = r.body.length + rest.length := by simp
  conv_lhs => rw [scanFixed]
  rw [dif_pos (by omega : 0 < (leBytes2 r.type.code ++ leBytes2 r.body.length ++ (r.body ++ rest)).length),
    if_pos (by omega : 0 + 2 ≤ (leBytes2 r.type.code ++ leBytes2 r.body.length ++ (r.body ++ rest)).length),
    readType_header _ _ _ (code_lt r.type), fromU16_code, Option.elim_some,
    if_pos (by omega : 0 + 4 ≤ (leBytes2 r.type.code ++ leBytes2 r.body.length ++ (r.body ++ rest)).length),
    readLen_header _ _ _ hwf, if_pos ⟨hty, hlen⟩,
    if_pos (by omega : 0 + 4 + l ≤ (leBytes2 r.type.code ++ leBytes2 r.body.length ++ (r.body ++ rest)).length)]
  unfold sliceBytes
  rw [show (0 + 4 + l) - (0 + 4) = l by omega, show (0 + 4 : Nat) = 4 by omega,
    drop4_header, ← hlen, List.take_left]

/-- A record that does not match both the wanted type and the wanted length is
skipped: the cursor advances by `4 + length` and the scan continues on the
following bytes. -/
theorem scanFixed_step_skip (w : ExtensionType) (l : Nat) (r : ExtRecord) (rest : List Nat)
    (hwf : wfRecord r) (hm : ¬(r.type = w ∧ r.body.length = l)) :
    scanFixed w l (encodeRecord r ++ rest) 0 = scanFixed w l rest 0 := by
  rw [encodeRecord_append]
  have hL := header_length r.type.code r.body.length (r.body ++ rest)
  have hLb : (r.body ++ rest).length = r.body.length + rest.length := by simp
  conv_lhs => rw [scanFixed]
  rw [dif_pos (by omega : 0 < (leBytes2 r.type.code ++ leBytes2 r.body.length ++ (r.body ++ rest)).length),
    if_pos (by omega : 0 + 2 ≤ (leBytes2 r.type.code ++ leBytes2 r.body.length ++ (r.body ++ rest)).length),
    readType_header _ _ _ (code_lt r.type), fromU16_code, Option.elim_some,
    if_pos (by omega : 0 + 4 ≤ (leBytes2 r.type.code ++ leBytes2 r.body.length ++ (r.body ++ rest)).length),
    readLen_header _ _ _ hwf, if_neg hm]
  refine scanFixed_congr w l
    ((leBytes2 r.type.code ++ leBytes2 r.body.length ++ (r.body ++ rest)).length)
    _ (0 + 4 + r.body.length) rest 0 ?_ (by omega)
  rw [List.drop_zero, show 0 + 4 + r.body.length = 4 + r.body.length by omega,
    show (4 : Nat) + r.body.length = 4 + (r.body.length + 0) by omega, ← List.drop_drop,
    drop4_header, List.drop_append, List.drop_zero]

/-- `encodeStream` distributes over append. -/
theorem encodeStream_append (xs ys : List ExtRecord) :
    encodeStream (xs ++ ys) = encodeStream xs ++ encodeStream ys := by
  induction xs with
  | nil => simp [encodeStream]
  | cons x xs ih => simp [encodeStream, ih, List.append_assoc]

/-- Scanning an empty region reports not-found. -/
theorem scanFixed_nil (w : ExtensionType) (l : Nat) :
    scanFixed w l [] 0 = ScanResult.notFound := by
  rw [scanFixed]
  simp

/-- After a prefix of well-formed non-matching records, the first record
matching both the wanted type and length is returned — whatever bytes follow
it. -/
theorem scanFixed_stream_found (w : ExtensionType) (l : Nat) (r : ExtRecord)
    (rest : List Nat) (hr : wfRecord r) (hty : r.type = w) (hlen : r.body.length = l) :
    ∀ pre : List ExtRecord, (∀ q ∈ pre, wfRecord q) →
      (∀ q ∈ pre, ¬(q.type = w ∧ q.body.length = l)) →
      scanFixed w l (encodeStream pre ++ encodeRecord r ++ rest) 0 =
        ScanResult.found r.body := by
  intro pre
  induction pre with
  | nil =>
    intro _ _
    rw [show encodeStream [] = ([] : List Nat) from rfl, List.nil_append]
    exact scanFixed_step_found w l r rest hr hty hlen
  | cons a pre ih =>
    intro hpre hskip
    rw [show encodeStream (a :: pre) = encodeRecord a ++ encodeStream pre from rfl]
    simp only [List.append_assoc]
    rw [scanFixed_step_skip w l a _ (hpre a (by simp)) (hskip a (by simp))]
    simpa only [List.append_assoc] using
      ih (fun q hq => hpre q (List.mem_cons_of_mem _ hq))
        (fun q hq => hskip q (List.mem_cons_of_mem _ hq))

/-- A stream of well-formed records none of which matches both the wanted type
and length scans to not-found. -/
theorem scanFixed_stream_notFound (w : ExtensionType) (l : Nat) :
    ∀ rs : List ExtRecord, (∀ q ∈ rs, wfRecord q) →
      (∀ q ∈ rs, ¬(q.type = w ∧ q.body.length = l)) →
      scanFixed w l (encodeStream rs) 0 = ScanResult.notFound := by
  intro rs
  induction rs with
  | nil =>
    intro _ _
    exact scanFixed_nil w l
  | cons a rs ih =>
    intro hwf hnm
    rw [show encodeStream (a :: rs) = encodeRecord a ++ encodeStream rs from rfl]
    rw [scanFixed_step_skip w l a _ (hwf a (by simp)) (hnm a (by simp))]
    exact ih (fun q hq => hwf q (List.mem_cons_of_mem _ hq))
      (fun q hq => hnm q (List.mem_cons_of_mem _ hq))

/-- A record header bearing an unrecognized type code (≥ 28) aborts the scan:
whatever follows the four header bytes, the result is the `None` return. -/
theorem scanFixed_unknown_abort (w : ExtensionType) (l : Nat) (c bl : Nat)
    (tail : List Nat) (hc : 28 ≤ c) (hc2 : c < 65536) :
    ∀ pre : List ExtRecord, (∀ q ∈ pre, wfRecord q) →
      (∀ q ∈ pre, ¬(q.type = w ∧ q.body.length = l)) →
      scanFixed w l (encodeStream pre ++ (leBytes2 c ++ leBytes2 bl ++ tail)) 0 =
        ScanResult.notFound := by
  intro pre
  induction pre with
  | nil =>
    intro _ _
    rw [show encodeStream [] = ([] : List Nat) from rfl, List.nil_append]
    have hL := header_length c bl tail
    conv_lhs => rw [scanFixed]
    rw [dif_pos (by omega : 0 < (leBytes2 c ++ leBytes2 bl ++ tail).length),
      if_pos (by omega : 0 + 2 ≤ (leBytes2 c ++ leBytes2 bl ++ tail).length),
      readType_header c bl tail hc2, fromU16_unknown c hc, Option.elim_none]
  | cons a pre ih =>
    intro hwf hnm
    rw [show encodeStream (a :: pre) = encodeRecord a ++ encodeStream pre from rfl]
    simp only [List.append_assoc]
    rw [scanFixed_step_skip w l a _ (hwf a (by simp)) (hnm a (by simp))]
    simpa only [List.append_assoc] using
      ih (fun q hq => hwf q (List.mem_cons_of_mem _ hq))
        (fun q hq => hnm q (List.mem_cons_of_mem _ hq))

/-- C1 (amended): for a well-formed Extension Region obtained by concatenating
records `pre ++ [r] ++ post`, looking up `r`'s type with `r`'s exact length
returns exactly `r.body`, provided no record before `r` carries both the same
type and the same declared length; in general the scan returns the body of the
first record matching both.  (As stated over every record of the stream the
claim fails when an earlier record duplicates the type/length pair — see the
counterexample.) -/
theorem C1_scan_determinism_first_match (pre post : List ExtRecord) (r : ExtRecord)
    (hwf : ∀ q ∈ pre ++ r :: post, wfRecord q)
    (hfirst : ∀ q ∈ pre, ¬(q.type = r.type ∧ q.body.length = r.body.length)) :
    scanFixed r.type r.body.length (encodeStream (pre ++ r :: post)) 0 =
      ScanResult.found r.body := by
  rw [encodeStream_append,
    show encodeStream (r :: post) = encodeRecord r ++ encodeStream post from rfl,
    ← List.append_assoc]
  exact scanFixed_stream_found r.type r.body.length r (encodeStream post)
    (hwf r (by simp)) rfl rfl pre (fun q hq => hwf q (by simp [hq])) hfirst

/-- Witness for C1: a concrete stream `[TransferFeeConfig [1,2]] ++
[MintCloseAuthority [5]]` where the lookup for the second record returns its
body. -/
theorem C1_scan_determinism_first_match_witness :
    (∀ q ∈ ([⟨ExtensionType.transferFeeConfig, [1, 2]⟩] ++
        (⟨ExtensionType.mintCloseAuthority, [5]⟩ : ExtRecord) :: [] : List ExtRecord), wfRecord q)
    ∧ (∀ q ∈ ([⟨ExtensionType.transferFeeConfig, [1, 2]⟩] : List ExtRecord),
        ¬(q.type = ExtensionType.mintCloseAuthority ∧ q.body.length = 1))
    ∧ scanFixed ExtensionType.mintCloseAuthority 1
        (encodeStream ([⟨ExtensionType.transferFeeConfig, [1, 2]⟩] ++
          (⟨ExtensionType.mintCloseAuthority, [5]⟩ : ExtRecord) :: [])) 0 =
        ScanResult.found [5] :=
  ⟨by decide, by decide,
    C1_scan_determinism_first_match [⟨ExtensionType.transferFeeConfig, [1, 2]⟩] []
      ⟨ExtensionType.mintCloseAuthority, [5]⟩ (by decide) (by decide)⟩

/-- C1 fails as stated: in the well-formed region holding two
`MintCloseAuthority` records of declared length 1, bodies `[7]` then `[9]`,
the lookup for the second record's type with its exact length does not return
the second record's body (it returns the first's). -/
theorem C1_counterexample :
    scanFixed ExtensionType.mintCloseAuthority 1
      (encodeStream [⟨ExtensionType.mintCloseAuthority, [7]⟩,
        ⟨ExtensionType.mintCloseAuthority, [9]⟩]) 0 ≠ ScanResult.found [9] := by
  simp [encodeStream, encodeRecord, leBytes2, ExtensionType.code, scanFixed, readType, readLen,
    ExtensionType.fromBytes, ExtensionType.fromU16, u16FromLe, sliceBytes]

/-- C2: the claim — truncation never causes a panic — fails on the code.  Each
clause evaluates a scanner at a truncation point the source handles with an
unchecked Rust slice index: a region cut inside the length field, inside the
type field, inside a declared body, a variable-pack region cut before the
length field, and a buffer shorter than the base-record offset (here 166).
Every one panics instead of returning `None`. -/
theorem C2_truncation_panics :
    get_extension_from_bytes ExtensionType.defaultAccountState 1 0 [6, 0, 1] =
      ScanResult.panicked
    ∧ get_extension_from_bytes ExtensionType.defaultAccountState 1 0 [6] =
      ScanResult.panicked
    ∧ get_extension_from_bytes ExtensionType.defaultAccountState 1 0 [6, 0, 1, 0] =
      ScanResult.panicked
    ∧ get_extension_data_bytes_for_variable_pack ExtensionType.tokenMetadata 0 [19, 0] =
      ScanResult.panicked
    ∧ get_extension_from_bytes ExtensionType.defaultAccountState 1 166
        (List.replicate 165 0) = ScanResult.panicked := by
  refine ⟨?_, ?_, ?_, ?_, ?_⟩
  case refine_5 =>
    rw [get_extension_from_bytes.eq_def, if_neg (by rw [List.length_replicate]; omega)]
  all_goals
    simp [get_extension_from_bytes, get_extension_data_bytes_for_variable_pack, scanFixed,
      scanVariable, readType, readLen, ExtensionType.fromBytes, ExtensionType.fromU16, u16FromLe]

/-- C3: one record with an unrecognized type code (any `c ≥ 28`) placed after
well-formed non-matching records makes the lookup of the target return `None`,
even though a well-formed record of the wanted type and length follows it: the
scan aborts instead of skipping the unknown record. -/
theorem C3_unknown_type_aborts (w : ExtensionType) (l : Nat) (pre : List ExtRecord)
    (c bl : Nat) (ubody rest : List Nat) (tgt : ExtRecord)
    (hwf : ∀ q ∈ pre, wfRecord q)
    (hnm : ∀ q ∈ pre, ¬(q.type = w ∧ q.body.length = l))
    (hc : 28 ≤ c) (hc2 : c < 65536)
    (htgt : wfRecord tgt) (hty : tgt.type = w) (hlen : tgt.body.length = l) :
    scanFixed w l
      (encodeStream pre ++
        (leBytes2 c ++ leBytes2 bl ++ (ubody ++ (encodeRecord tgt ++ rest)))) 0 =
      ScanResult.notFound :=
  scanFixed_unknown_abort w l c bl (ubody ++ (encodeRecord tgt ++ rest)) hc hc2 pre hwf hnm

/-- Witness for C3: a well-formed `TransferFeeConfig` record, then an unknown
record with code 28, then a well-formed matching `MintCloseAuthority` record —
the lookup still returns `None`. -/
theorem C3_unknown_type_aborts_witness :
    (∀ q ∈ ([⟨ExtensionType.transferFeeConfig, [1, 2]⟩] : List ExtRecord), wfRecord q)
    ∧ (∀ q ∈ ([⟨ExtensionType.transferFeeConfig, [1, 2]⟩] : List ExtRecord),
        ¬(q.type = ExtensionType.mintCloseAuthority ∧ q.body.length = 1))
    ∧ 28 ≤ 28 ∧ 28 < 65536
    ∧ wfRecord (⟨ExtensionType.mintCloseAuthority, [5]⟩ : ExtRecord)
    ∧ scanFixed ExtensionType.mintCloseAuthority 1
        (encodeStream [⟨ExtensionType.transferFeeConfig, [1, 2]⟩] ++
          (leBytes2 28 ++ leBytes2 2 ++ ([9, 9] ++
            (encodeRecord ⟨ExtensionType.mintCloseAuthority, [5]⟩ ++ [])))) 0 =
        ScanResult.notFound :=
  ⟨by decide, by decide, by decide, by decide, by decide,
    C3_unknown_type_aborts ExtensionType.mintCloseAuthority 1
      [⟨ExtensionType.transferFeeConfig, [1, 2]⟩] 28 2 [9, 9] []
      ⟨ExtensionType.mintCloseAuthority, [5]⟩
      (by decide) (by decide) (by decide) (by decide) (by decide) rfl rfl⟩

/-- C5: a record whose type matches the wanted fixed-layout type but whose
declared length differs is never returned — the scan skips it (advancing by
`4 + length` to the following bytes) and, when no later record matches both
type and exact length, reports the `None` that callers see as not-found. -/
theorem C5_length_mismatch_not_returned (w : ExtensionType) (l : Nat) (r : ExtRecord)
    (rs : List ExtRecord)
    (hr : wfRecord r) (hty : r.type = w) (hlen : r.body.length ≠ l)
    (hwf : ∀ q ∈ rs, wfRecord q)
    (hnm : ∀ q ∈ rs, ¬(q.type = w ∧ q.body.length = l)) :
    scanFixed w l (encodeRecord r ++ encodeStream rs) 0 =
      scanFixed w l (encodeStream rs) 0
    ∧ scanFixed w l (encodeRecord r ++ encodeStream rs) 0 = ScanResult.notFound := by
  have hskip := scanFixed_step_skip w l r (encodeStream rs) hr (by tauto)
  exact ⟨hskip, hskip.trans (scanFixed_stream_notFound w l rs hwf hnm)⟩

/-- Witness for C5: a `MintCloseAuthority` record of declared length 2 is
skipped by the lookup for `MintCloseAuthority` with fixed length 1, and with
only a non-matching `PermanentDelegate` record after it the scan reports
`None`. -/
theorem C5_length_mismatch_not_returned_witness :
    wfRecord (⟨ExtensionType.mintCloseAuthority, [1, 2]⟩ : ExtRecord)
    ∧ (⟨ExtensionType.mintCloseAuthority, [1, 2]⟩ : ExtRecord).body.length ≠ 1
    ∧ (∀ q ∈ ([⟨ExtensionType.permanentDelegate, [0]⟩] : List ExtRecord),
        ¬(q.type = ExtensionType.mintCloseAuthority ∧ q.body.length = 1))
    ∧ (scanFixed ExtensionType.mintCloseAuthority 1
        (encodeRecord ⟨ExtensionType.mintCloseAuthority, [1, 2]⟩ ++
          encodeStream [⟨ExtensionType.permanentDelegate, [0]⟩]) 0 =
        scanFixed ExtensionType.mintCloseAuthority 1
          (encodeStream [⟨ExtensionType.permanentDelegate, [0]⟩]) 0
      ∧ scanFixed ExtensionType.mintCloseAuthority 1
          (encodeRecord ⟨ExtensionType.mintCloseAuthority, [1, 2]⟩ ++
            encodeStream [⟨ExtensionType.permanentDelegate, [0]⟩]) 0 =
          ScanResult.notFound) :=
  ⟨by decide, by decide, by decide,
    C5_length_mismatch_not_returned ExtensionType.mintCloseAuthority 1
      ⟨ExtensionType.mintCloseAuthority, [1, 2]⟩ [⟨ExtensionType.permanentDelegate, [0]⟩]
      (by decide) rfl (by decide) (by decide) (by decide)⟩

/-- C10: with several records matching both the wanted type and the wanted
length, the scan returns the body of the earliest one in stream order; the
bytes after the first match (`rest`, which may hold further matching records)
never influence the result. -/
theorem C10_first_match_wins (w : ExtensionType) (l : Nat) (pre : List ExtRecord)
    (r : ExtRecord) (rest : List Nat)
    (hwf : ∀ q ∈ pre, wfRecord q)
    (hnm : ∀ q ∈ pre, ¬(q.type = w ∧ q.body.length = l))
    (hr : wfRecord r) (hty : r.type = w) (hlen : r.body.length = l) :
    scanFixed w l (encodeStream pre ++ encodeRecord r ++ rest) 0 =
      ScanResult.found r.body :=
  scanFixed_stream_found w l r rest hr hty hlen pre hwf hnm

/-- Witness for C10: two `MintCloseAuthority` records of length 1, bodies
`[7]` then `[9]` — the scan returns `[7]`, the earliest match, with the later
matching record sitting in the trailing bytes. -/
theorem C10_first_match_wins_witness :
    wfRecord (⟨ExtensionType.mintCloseAuthority, [7]⟩ : ExtRecord)
    ∧ scanFixed ExtensionType.mintCloseAuthority 1
        (encodeStream [] ++ encodeRecord ⟨ExtensionType.mintCloseAuthority, [7]⟩ ++
          encodeRecord ⟨ExtensionType.mintCloseAuthority, [9]⟩) 0 =
        ScanResult.found [7] :=
  ⟨by decide,
    C10_first_match_wins ExtensionType.mintCloseAuthority 1 []
      ⟨ExtensionType.mintCloseAuthority, [7]⟩
      (encodeRecord ⟨ExtensionType.mintCloseAuthority, [9]⟩)
      (by decide) (by decide) (by decide) rfl rfl⟩

/-- `getD` into an all-zero block is zero at every index. -/
theorem getD_replicate_zero (n k : Nat) : (List.replicate n (0 : Nat)).getD k 0 = 0 := by
  cases h : Nat.decLt k n <;>
    simp [List.getD_eq_getElem?_getD, List.getElem?_replicate, *]

/-- A position inside the written window of `write_bytes` holds the source
byte. -/
theorem writeBytes_in (buf : Nat → Option Nat) (a b : Nat) (src : List Nat) (i : Nat)
    (h : a ≤ i ∧ i < b ∧ i - a < src.length) :
    writeBytes buf a b src i = some (src.getD (i - a) 0) := if_pos h

/-- A position outside the written window of `write_bytes` is untouched. -/
theorem writeBytes_out (buf : Nat → Option Nat) (a b : Nat) (src : List Nat) (i : Nat)
    (h : ¬(a ≤ i ∧ i < b ∧ i - a < src.length)) :
    writeBytes buf a b src i = buf i := if_neg h

/-- `pubkeyDefault` is 32 bytes long. -/
theorem pubkeyDefault_length : pubkeyDefault.length = 32 := by
  simp [pubkeyDefault]

/-- C4: the `from_bytes` half of the claim holds — codes 0–27 decode to the
sequentially numbered identities and every code ≥ 28 decodes to `None`, and
the wire table does assign code 15 to `TransferHookAccount` — but the
registered `TYPE` constant of the `TransferHookAccount` view is
`ExtensionType::TransferHook`, wire code 14, not 15: the registration
contradicts the table.  The other provided views register the table's codes. -/
theorem C4_registry_discriminants :
    (∀ v : Nat, v < 28 → Option.map ExtensionType.code (ExtensionType.fromU16 v) = some v)
    ∧ (∀ v : Nat, ExtensionType.fromU16 (v + 28) = none)
    ∧ ExtensionType.fromU16 15 = some ExtensionType.transferHookAccount
    ∧ transferHookAccountTYPE = ExtensionType.transferHook
    ∧ transferHookAccountTYPE.code = 14
    ∧ transferHookTYPE.code = 14
    ∧ defaultAccountStateTYPE.code = 6
    ∧ scaledUiAmountConfigTYPE.code = 25
    ∧ permanentDelegateTYPE.code = 12
    ∧ confidentialMintBurnTYPE.code = 24
    ∧ pausableConfigTYPE.code = 26
    ∧ pausableAccountTYPE.code = 27 :=
  ⟨by decide, fun v => rfl, by decide, rfl, by decide, by decide, by decide, by decide,
    by decide, by decide, by decide, by decide⟩

/-- C6: the scaled-UI-amount accessor skips the owner check entirely.  For an
account owned by a foreign program (owner `[]`) whose data nevertheless holds
a valid `ScaledUiAmount` record, `ScaledUiAmountConfig`'s accessor parses the
TLV stream and returns the view — it can never report `InvalidAccountOwner` —
while `DefaultAccountState`'s accessor run on the same foreign-owned account
reports `InvalidAccountOwner` before any TLV parsing. -/
theorem C6_scaled_ui_owner_check_missing :
    ([] : List Nat) ≠ TOKEN_2022_PROGRAM_ID
    ∧ scaledUiAmountConfig_from_account_info 0
        ⟨[], encodeRecord ⟨ExtensionType.scaledUiAmount, List.replicate 56 0⟩⟩ =
        AccessResult.ok (List.replicate 56 0)
    ∧ defaultAccountState_from_account_info 1 0
        ⟨[], encodeRecord ⟨ExtensionType.scaledUiAmount, List.replicate 56 0⟩⟩ =
        AccessResult.err ProgramError.invalidAccountOwner := by
  refine ⟨by decide, ?_, by decide⟩
  show okOrInvalidData (get_extension_from_bytes ExtensionType.scaledUiAmount 56 0
    (encodeRecord ⟨ExtensionType.scaledUiAmount, List.replicate 56 0⟩)) =
    AccessResult.ok (List.replicate 56 0)
  rw [get_extension_from_bytes.eq_def, if_pos (Nat.zero_le _), List.drop_zero,
    ← List.append_nil (encodeRecord ⟨ExtensionType.scaledUiAmount, List.replicate 56 0⟩),
    scanFixed_step_found ExtensionType.scaledUiAmount 56
      ⟨ExtensionType.scaledUiAmount, List.replicate 56 0⟩ []
      (by rw [wfRecord]; simp) rfl (by simp)]
  rfl

/-- C7 fails as stated: the account-meta list built by `Pause::invoke_signed`
is `[writable(mint)]` alone — it does not contain a readonly-signer meta for
the pause authority (shown here at concrete mint/authority keys). -/
theorem C7_counterexample :
    (pauseInvoke (List.replicate 32 1) (List.replicate 32 2)).instruction.accounts ≠
      [AccountMeta.writable (List.replicate 32 1),
        AccountMeta.readonlySigner (List.replicate 32 2)] := by
  decide

/-- C7 (amended): `encode(Pause{mint, authority})` produces payload bytes
`[45, 1]` with zero additional bytes and the account-meta list
`[writable(mint)]`; the pause authority is passed to dispatch only in the
account-info list `[mint, authority]`, not as an account meta.  `Apply pending
confidential burn` produces exactly `[42, 5]` with metas
`[writable(mint), readonly_signer(authority)]`. -/
theorem C7_encoder_literalness (mint authority : List Nat) :
    pauseInvoke mint authority =
      { instruction :=
          { programId := TOKEN_2022_PROGRAM_ID
            accounts := [AccountMeta.writable mint]
            data := [some 45, some 1] }
        accountInfos := [mint, authority] }
    ∧ applyPendingBurnInvoke mint authority =
      { instruction :=
          { programId := TOKEN_2022_PROGRAM_ID
            accounts := [AccountMeta.writable mint, AccountMeta.readonlySigner authority]
            data := [some 42, some 5] }
        accountInfos := [mint, authority] } :=
  ⟨rfl, rfl⟩

/-- C8: optional 32-byte public keys are encoded as 32 zero bytes when absent
and verbatim when present: the transfer-hook `Initialize` payload holds zeros
at `[2..34]` for an absent authority and `P` verbatim at `[34..66]` for a
present hook program id (and `A` verbatim at `[2..34]` when the authority is
present); the scaled-UI-amount `Initialize` payload does the same at its
authority position `[2..34]`. -/
theorem C8_optional_pubkey_sentinel (P A mLe : List Nat)
    (hP : P.length = 32) (hA : A.length = 32) :
    (∀ i, 2 ≤ i → i < 34 → transferHookInitBuf none (some P) i = some 0)
    ∧ (∀ i, 34 ≤ i → i < 66 → transferHookInitBuf none (some P) i = some (P.getD (i - 34) 0))
    ∧ (∀ i, 2 ≤ i → i < 34 → transferHookInitBuf (some A) (some P) i = some (A.getD (i - 2) 0))
    ∧ (∀ i, 2 ≤ i → i < 34 → scaledUiInitBuf none mLe i = some 0)
    ∧ (∀ i, 2 ≤ i → i < 34 → scaledUiInitBuf (some A) mLe i = some (A.getD (i - 2) 0)) := by
  have hpd := pubkeyDefault_length
  refine ⟨?_, ?_, ?_, ?_, ?_⟩ <;> intro i h1 h2
  · show writeBytes (writeBytes _ 2 34 pubkeyDefault) 34 66 P i = some 0
    rw [writeBytes_out _ _ _ _ _ (by omega), writeBytes_in _ _ _ _ _ ⟨h1, h2, by omega⟩,
      pubkeyDefault, getD_replicate_zero]
  · show writeBytes (writeBytes _ 2 34 pubkeyDefault) 34 66 P i = some (P.getD (i - 34) 0)
    rw [writeBytes_in _ _ _ _ _ ⟨h1, h2, by omega⟩]
  · show writeBytes (writeBytes _ 2 34 A) 34 66 P i = some (A.getD (i - 2) 0)
    rw [writeBytes_out _ _ _ _ _ (by omega), writeBytes_in _ _ _ _ _ ⟨h1, h2, by omega⟩]
  · show writeBytes (writeBytes _ 2 34 pubkeyDefault) 34 42 mLe i = some 0
    rw [writeBytes_out _ _ _ _ _ (by omega), writeBytes_in _ _ _ _ _ ⟨h1, h2, by omega⟩,
      pubkeyDefault, getD_replicate_zero]
  · show writeBytes (writeBytes _ 2 34 A) 34 42 mLe i = some (A.getD (i - 2) 0)
    rw [writeBytes_out _ _ _ _ _ (by omega), writeBytes_in _ _ _ _ _ ⟨h1, h2, by omega⟩]

/-- Witness for C8 at concrete 32-byte keys and an 8-byte multiplier. -/
theorem C8_optional_pubkey_sentinel_witness :
    (List.replicate 32 7).length = 32 ∧ (List.replicate 32 8).length = 32
    ∧ ((∀ i, 2 ≤ i → i < 34 →
          transferHookInitBuf none (some (List.replicate 32 7)) i = some 0)
      ∧ (∀ i, 34 ≤ i → i < 66 →
          transferHookInitBuf none (some (List.replicate 32 7)) i =
            some ((List.replicate 32 7).getD (i - 34) 0))
      ∧ (∀ i, 2 ≤ i → i < 34 →
          transferHookInitBuf (some (List.replicate 32 8)) (some (List.replicate 32 7)) i =
            some ((List.replicate 32 8).getD (i - 2) 0))
      ∧ (∀ i, 2 ≤ i → i < 34 → scaledUiInitBuf none (List.replicate 8 3) i = some 0)
      ∧ (∀ i, 2 ≤ i → i < 34 →
          scaledUiInitBuf (some (List.replicate 32 8)) (List.replicate 8 3) i =
            some ((List.replicate 32 8).getD (i - 2) 0))) :=
  ⟨by decide, by decide,
    C8_optional_pubkey_sentinel (List.replicate 32 7) (List.replicate 32 8)
      (List.replicate 8 3) (by decide) (by decide)⟩

/-- C9 fails as stated: at the concrete input `program_id = [5; 32]`, byte 2
of the `Update` transfer-hook payload — the start of the claimed fixed
authority position `[2..34]` — is never written by the encoder, so it has no
defined value (it is an uninitialized cell, not a byte determined by the
inputs). -/
theorem C9_counterexample :
    transferHookUpdateBuf (some (List.replicate 32 5)) 2 = Option.none := by
  decide

/-- C9 (amended): the `Update` transfer-hook payload is 66 bytes; every byte
the encoder writes is a pure function of the inputs — `[0] = 36`, `[1] = 1`,
and `[34..66]` carries the hook program id verbatim (or 32 zero bytes when it
is absent) — but the 32 cells at `[2..34]` are left unwritten
(uninitialized), not given any defined value. -/
theorem C9_update_payload_determined (P : List Nat) (hP : P.length = 32) :
    transferHookUpdateBuf (some P) 0 = some 36
    ∧ transferHookUpdateBuf (some P) 1 = some 1
    ∧ (∀ i, 2 ≤ i → i < 34 → transferHookUpdateBuf (some P) i = Option.none)
    ∧ (∀ i, 34 ≤ i → i < 66 → transferHookUpdateBuf (some P) i = some (P.getD (i - 34) 0))
    ∧ (∀ i, 2 ≤ i → i < 34 → transferHookUpdateBuf none i = Option.none)
    ∧ (∀ i, 34 ≤ i → i < 66 → transferHookUpdateBuf none i = some 0) := by
  have hpd := pubkeyDefault_length
  refine ⟨?_, ?_, ?_, ?_, ?_, ?_⟩
  · show writeBytes (writeBytes (writeBytes uninitBuf 0 1 [36]) 1 2 [1]) 34 66 P 0 = some 36
    rw [writeBytes_out _ _ _ _ _ (by simp), writeBytes_out _ _ _ _ _ (by simp),
      writeBytes_in _ _ _ _ _ (by simp)]
    rfl
  · show writeBytes (writeBytes (writeBytes uninitBuf 0 1 [36]) 1 2 [1]) 34 66 P 1 = some 1
    rw [writeBytes_out _ _ _ _ _ (by simp), writeBytes_in _ _ _ _ _ (by simp)]
    rfl
  · intro i h1 h2
    show writeBytes (writeBytes (writeBytes uninitBuf 0 1 [36]) 1 2 [1]) 34 66 P i =
      Option.none
    rw [writeBytes_out _ _ _ _ _ (by omega), writeBytes_out _ _ _ _ _ (by simp; omega),
      writeBytes_out _ _ _ _ _ (by simp; omega)]
    rfl
  · intro i h1 h2
    show writeBytes (writeBytes (writeBytes uninitBuf 0 1 [36]) 1 2 [1]) 34 66 P i =
      some (P.getD (i - 34) 0)
    rw [writeBytes_in _ _ _ _ _ ⟨h1, h2, by omega⟩]
  · intro i h1 h2
    show writeBytes (writeBytes (writeBytes uninitBuf 0 1 [36]) 1 2 [1]) 34 66
      pubkeyDefault i = Option.none
    rw [writeBytes_out _ _ _ _ _ (by omega), writeBytes_out _ _ _ _ _ (by simp; omega),
      writeBytes_out _ _ _ _ _ (by simp; omega)]
    rfl
  · intro i h1 h2
    show writeBytes (writeBytes (writeBytes uninitBuf 0 1 [36]) 1 2 [1]) 34 66
      pubkeyDefault i = some 0
    rw [writeBytes_in _ _ _ _ _ ⟨h1, h2, by omega⟩, pubkeyDefault, getD_replicate_zero]

/-- Witness for C9 at the concrete program id `[5; 32]`. -/
theorem C9_update_payload_determined_witness :
    (List.replicate 32 5).length = 32
    ∧ (transferHookUpdateBuf (some (List.replicate 32 5)) 0 = some 36
      ∧ transferHookUpdateBuf (some (List.replicate 32 5)) 1 = some 1
      ∧ (∀ i, 2 ≤ i → i < 34 →
          transferHookUpdateBuf (some (List.replicate 32 5)) i = Option.none)
      ∧ (∀ i, 34 ≤ i → i < 66 →
          transferHookUpdateBuf (some (List.replicate 32 5)) i =
            some ((List.replicate 32 5).getD (i - 34) 0))
      ∧ (∀ i, 2 ≤ i → i < 34 → transferHookUpdateBuf none i = Option.none)
      ∧ (∀ i, 34 ≤ i → i < 66 → transferHookUpdateBuf none i = some 0)) :=
  ⟨by decide, C9_update_payload_determined (List.replicate 32 5) (by decide)⟩
